import Mathlib

/-
  Verification of the backpack-grid-bot specification against its source.

  The embedding translates the decision logic of `src/grid_bot.py`,
  `src/api/ws_client.py` and `src/utils/indicators.py` into Lean.
  Python `Decimal` and `float` arithmetic on prices, quantities and ratios is
  modelled by exact rationals; fallible method calls whose receiver may lack
  the method are modelled by `Option`-valued inputs.
-/

/- ===== Position ledger: `BollMakerBot._process_db_queue`, `update_position` branch ===== -/

/-- A fill event as delivered to the `update_position` branch of
`BollMakerBot._process_db_queue` (src/grid_bot.py lines 178-219): a side
string (`Bid`/`Ask` in practice), a quantity and a price. -/
structure Fill where
  side : String
  quantity : ℚ
  price : ℚ

/-- Side dispatch of the ledger update: `order_data[side].upper() == BID`
(src/grid_bot.py line 191). `String.toUpper` is modelled on the character
list so that the kernel can evaluate it. -/
def side_is_bid (s : String) : Bool := s.data.map Char.toUpper == "BID".data

/-- One step of the ledger update path (src/grid_bot.py lines 186-210):
from the stored `(size, cost)` pair and one fill, compute the new stored
pair. A buy adds quantity and notional; a sell subtracts quantity and, when
the size is positive, reduces cost proportionally, otherwise zeroes the
cost; both results are clamped at zero before being written back. The
database write and the trade-log append do not change the pair. -/
def update_position_step (pos : ℚ × ℚ) (f : Fill) : ℚ × ℚ :=
  let size := pos.1
  let cost := pos.2
  if side_is_bid f.side then
    let new_size := size + f.quantity
    let new_cost := cost + f.quantity * f.price
    (max 0 new_size, max 0 new_cost)
  else
    let new_size := size - f.quantity
    let new_cost := if 0 < size then cost - (f.quantity / size) * cost else 0
    (max 0 new_size, max 0 new_cost)

/-- All stored positions reached while processing a fill sequence in queue
order from a start state: the start state and the state after each fill. -/
def ledger_states (start : ℚ × ℚ) (fills : List Fill) : List (ℚ × ℚ) :=
  List.scanl update_position_step start fills

/-- Buy formula as the claim states it: `new_size = size + q`,
`new_cost = cost + q * p`, each clamped at zero. -/
def spec_buy_fill (size cost q p : ℚ) : ℚ × ℚ :=
  (max 0 (size + q), max 0 (cost + q * p))

/-- Sell formula as the claim states it: `new_size = size - q`; when
`size > 0` the new cost is `cost - (q / size) * cost`, when `size = 0` it is
zero; each clamped at zero. -/
def spec_sell_fill (size cost q : ℚ) : ℚ × ℚ :=
  (max 0 (size - q), max 0 (if 0 < size then cost - (q / size) * cost else 0))

/- ===== Risk control: `BollMakerBot._check_risk_control` ===== -/

/-- The risk-control thresholds read from the bot configuration. -/
structure RiskConfig where
  stop_loss_activation : ℚ
  stop_loss_ratio : ℚ
  take_profit_ratio : ℚ

/-- `BollMakerBot._check_risk_control` (src/grid_bot.py lines 399-426):
returns the boolean result (`true` = continue trading) together with the
number of `_close_position` calls made. With `cost <= 0` it returns `true`
at once. Otherwise `roi = (price - cost) / cost`; the stop-loss branch fires
when `|roi| >= activation`, `roi < 0` and `|roi| >= stop_loss_ratio`; the
take-profit comparison `roi >= take_profit_ratio` is a separate top-level
`if`, not nested under the activation gate. -/
def check_risk_control (cfg : RiskConfig) (current_price position_cost : ℚ) : Bool × ℕ :=
  if position_cost ≤ 0 then (true, 0)
  else
    let roi := (current_price - position_cost) / position_cost
    if cfg.stop_loss_activation ≤ |roi| ∧ roi < 0 ∧ cfg.stop_loss_ratio ≤ |roi| then
      (false, 1)
    else if cfg.take_profit_ratio ≤ roi then
      (false, 1)
    else
      (true, 0)

/- ===== Dynamic spread: `BollMakerBot._calculate_dynamic_spread` ===== -/

/-- The spread-related configuration entries read by
`_calculate_dynamic_spread` (src/grid_bot.py lines 336-397). -/
structure SpreadConfig where
  dynamic_spread : Bool
  spread : ℚ
  spread_min : ℚ
  spread_max : ℚ
  trend_skew : Bool
  uptrend_skew : ℚ
  downtrend_skew : ℚ

/-- The base-spread selection of `_calculate_dynamic_spread`
(src/grid_bot.py lines 358-367): `SPREAD_MIN` at or below volatility
`0.0025`, `SPREAD_MAX` at or above `0.05`, linear interpolation between. -/
def base_spread (cfg : SpreadConfig) (volatility : ℚ) : ℚ :=
  if volatility ≤ 25/10000 then cfg.spread_min
  else if 5/100 ≤ volatility then cfg.spread_max
  else cfg.spread_min +
    (cfg.spread_max - cfg.spread_min) * ((volatility - 25/10000) / (5/100 - 25/10000))

/-- The final clamp of each spread into the configured range
(src/grid_bot.py lines 384-385). -/
def clamp_spread (cfg : SpreadConfig) (x : ℚ) : ℚ :=
  max (min x cfg.spread_max) cfg.spread_min

/-- `BollMakerBot._calculate_dynamic_spread` (src/grid_bot.py lines
336-397), returning `(ask_spread, bid_spread)`, under a configuration
dictionary that defines the `SPREAD` key (the shape the repository tests
build). The two indicator method calls are represented by their optional
results: `bands` is the result of `short_boll.get_bands()` and `sma` the
result of `short_boll.get_sma()`; `none` models the `AttributeError`
raised when the receiver lacks the method (as the `BollingerBands` class
in src/utils/indicators.py does), which the enclosing `except` turns into
the static-spread fallback. The full behaviour of the function, including
the fallibility of the `self.config["SPREAD"]` lookup performed by the
disabled path and by the `except` handler itself, is carried by
`calculate_dynamic_spread_dict` below; `calculate_dynamic_spread_dict_some`
proves this function to be its restriction to key-present
configurations. -/
def calculate_dynamic_spread (cfg : SpreadConfig) (current_price : ℚ)
    (bands : Option (ℚ × ℚ × ℚ)) (sma : Option ℚ) : ℚ × ℚ :=
  if cfg.dynamic_spread = false then (cfg.spread, cfg.spread)
  else
    match bands with
    | none => (cfg.spread, cfg.spread)
    | some (short_upper, _, short_lower) =>
      let volatility := |short_upper - short_lower| / current_price
      let base := base_spread cfg volatility
      if cfg.trend_skew then
        match sma with
        | none => (cfg.spread, cfg.spread)
        | some s =>
          if s < current_price then
            (clamp_spread cfg (base * cfg.uptrend_skew),
             clamp_spread cfg (base * (2 - cfg.uptrend_skew)))
          else
            (clamp_spread cfg (base * cfg.downtrend_skew),
             clamp_spread cfg (base * (2 - cfg.downtrend_skew)))
      else
        (clamp_spread cfg base, clamp_spread cfg base)

/-- The spread configuration as `_calculate_dynamic_spread` actually reads
it from the `self.config` dictionary: `spread_entry` is the value stored
under the `SPREAD` key, `none` when that key is absent — as it is in the
configuration built by the module's own `__main__` block, which stores the
value under `GRID_SPREAD` instead (src/grid_bot.py line 1105) while
supplying every other key this function reads under its expected name. -/
structure SpreadDictConfig where
  dynamic_spread : Bool
  spread_entry : Option ℚ
  spread_min : ℚ
  spread_max : ℚ
  trend_skew : Bool
  uptrend_skew : ℚ
  downtrend_skew : ℚ

/-- The `SpreadConfig` view of a dictionary configuration, with `sp` for
the `SPREAD` entry. `base_spread` and `clamp_spread` read only the min and
max fields, so the value of `sp` is irrelevant to them. -/
def SpreadDictConfig.core (cfg : SpreadDictConfig) (sp : ℚ) : SpreadConfig :=
  ⟨cfg.dynamic_spread, sp, cfg.spread_min, cfg.spread_max, cfg.trend_skew,
   cfg.uptrend_skew, cfg.downtrend_skew⟩

/-- `BollMakerBot._calculate_dynamic_spread` (src/grid_bot.py lines
336-397) with the fallibility of the `SPREAD` config lookup made explicit.
A `none` result models an uncaught exception propagating to the caller:
when the `SPREAD` key is absent, the lookup on the disabled path (line 344)
raises `KeyError` inside the `try`, and the `except` handler then performs
the same lookup (line 397) and raises `KeyError` itself, outside any
handler; likewise for every caught internal error such as the
`AttributeError` of the missing `get_bands`/`get_sma` (`bands`/`sma` =
`none`). The successful dynamic path never reads the `SPREAD` key. -/
def calculate_dynamic_spread_dict (cfg : SpreadDictConfig) (current_price : ℚ)
    (bands : Option (ℚ × ℚ × ℚ)) (sma : Option ℚ) : Option (ℚ × ℚ) :=
  if cfg.dynamic_spread = false then
    Option.map (fun sp => (sp, sp)) cfg.spread_entry
  else
    match bands with
    | none => Option.map (fun sp => (sp, sp)) cfg.spread_entry
    | some (short_upper, _, short_lower) =>
      let volatility := |short_upper - short_lower| / current_price
      let base := base_spread (cfg.core 0) volatility
      if cfg.trend_skew then
        match sma with
        | none => Option.map (fun sp => (sp, sp)) cfg.spread_entry
        | some s =>
          if s < current_price then
            some (clamp_spread (cfg.core 0) (base * cfg.uptrend_skew),
              clamp_spread (cfg.core 0) (base * (2 - cfg.uptrend_skew)))
          else
            some (clamp_spread (cfg.core 0) (base * cfg.downtrend_skew),
              clamp_spread (cfg.core 0) (base * (2 - cfg.downtrend_skew)))
      else
        some (clamp_spread (cfg.core 0) base, clamp_spread (cfg.core 0) base)

/- ===== Position scale: `BollMakerBot._calculate_position_scale` ===== -/

/-- The position-scale bounds read from the bot configuration. -/
structure ScaleConfig where
  min_position_scale : ℚ
  max_position_scale : ℚ

/-- The clamp `max(0.0, min(1.0, x))` used on each normalized band position
(src/grid_bot.py lines 613-614). -/
def clamp01 (x : ℚ) : ℚ := max 0 (min 1 x)

/-- `BollMakerBot._calculate_position_scale` (src/grid_bot.py lines
589-637). The first guard models Python truthiness of
`all([long_upper, long_lower, short_upper, short_lower])`: any zero bound
yields the neutral scale 1. The second guard rejects band ranges at or
below `0.0001`. Otherwise each normalized position is clamped into `[0,1]`,
inverted, averaged, and mapped affinely into the configured scale range. -/
def calculate_position_scale (cfg : ScaleConfig)
    (current_price long_upper long_lower short_upper short_lower : ℚ) : ℚ :=
  if long_upper = 0 ∨ long_lower = 0 ∨ short_upper = 0 ∨ short_lower = 0 then 1
  else
    let long_range := long_upper - long_lower
    let short_range := short_upper - short_lower
    if long_range ≤ 1/10000 ∨ short_range ≤ 1/10000 then 1
    else
      let long_position := 1 - clamp01 ((current_price - long_lower) / long_range)
      let short_position := 1 - clamp01 ((current_price - short_lower) / short_range)
      let position_scale := (long_position + short_position) / 2
      cfg.min_position_scale +
        (cfg.max_position_scale - cfg.min_position_scale) * position_scale

/- ===== Grid ladder: `BollMakerBot._adjust_orders`, multi-level grid ===== -/

/-- Round to the nearest integer with ties to even, the rounding used by
Python `round`. -/
def round_half_even (x : ℚ) : ℤ :=
  let f := ⌊x⌋
  let r := x - (f : ℚ)
  if r < 1/2 then f
  else if 1/2 < r then f + 1
  else if f % 2 = 0 then f else f + 1

/-- Python `round(x, p)` for `p >= 0` decimal digits, over exact
rationals. -/
def round_to (x : ℚ) (p : ℕ) : ℚ := (round_half_even (x * 10 ^ p) : ℚ) / 10 ^ p

/-- The grid-related configuration entries read by `_adjust_orders`
(src/grid_bot.py lines 481-503). -/
structure GridConfig where
  grid_levels_per_side : ℕ
  grid_step : ℚ
  price_precision : ℕ
  quantity_precision : ℕ
  grid_side_budget_ratio : ℚ
  grid_total_investment : ℚ
  base_order_size : ℚ
  min_profit_spread : ℚ

/-- Buy-side ladder prices (src/grid_bot.py lines 512-519): for
`i = 1..levels`, `round(price * (1 - step * i), price_precision)`, keeping
only positive prices. -/
def buy_prices (cfg : GridConfig) (current_price : ℚ) : List ℚ :=
  ((List.range cfg.grid_levels_per_side).map (fun i =>
    round_to (current_price * (1 - cfg.grid_step * ((i : ℚ) + 1)))
      cfg.price_precision)).filter (fun bp => decide (0 < bp))

/-- Sell-side ladder prices (src/grid_bot.py lines 512-521): for
`i = 1..levels`, `round(price * (1 + step * i), price_precision)`, keeping
only positive prices. -/
def sell_prices (cfg : GridConfig) (current_price : ℚ) : List ℚ :=
  ((List.range cfg.grid_levels_per_side).map (fun i =>
    round_to (current_price * (1 + cfg.grid_step * ((i : ℚ) + 1)))
      cfg.price_precision)).filter (fun ap => decide (0 < ap))

/-- The minimum sell price gate (src/grid_bot.py lines 524-526): set only
when a position cost exists. -/
def min_sell_price (cfg : GridConfig) (position_cost : ℚ) : Option ℚ :=
  if 0 < position_cost then
    some (round_to (position_cost * (1 + cfg.min_profit_spread)) cfg.price_precision)
  else none

/-- The buy-side budget in quote currency (src/grid_bot.py line 498). -/
def buy_usdc_cap (cfg : GridConfig) : ℚ :=
  cfg.grid_total_investment * cfg.grid_side_budget_ratio

/-- The sell-side budget in base-asset quantity (src/grid_bot.py line
499). -/
def sell_base_cap (cfg : GridConfig) (current_price : ℚ) : ℚ :=
  cfg.grid_total_investment * cfg.grid_side_budget_ratio / current_price

/-- Result of walking one side of the ladder: the used budget counter, the
successfully placed `(price, quantity)` orders, and the levels left
unattempted because the budget check broke out of the loop. -/
structure LadderResult where
  used : ℚ
  placed : List (ℚ × ℚ)
  remaining : List ℚ

/-- The buy-side placement loop (src/grid_bot.py lines 530-554). Each entry
of `outcomes` is the result of the next `place_order` attempt: `true` when
the exchange returns an order with an id (the budget counter advances by
the level notional), `false` when it fails or raises (the loop continues
with the budget unchanged). The budget check precedes the quantity check
and breaks out of the loop. -/
def place_buy_ladder (cfg : GridConfig) (cap : ℚ) :
    List ℚ → List Bool → ℚ → LadderResult
  | [], _, used => ⟨used, [], []⟩
  | bp :: rest, outcomes, used =>
    let notional := bp * cfg.base_order_size
    if cap < used + notional then ⟨used, [], bp :: rest⟩
    else
      let qty := round_to cfg.base_order_size cfg.quantity_precision
      if qty ≤ 0 then place_buy_ladder cfg cap rest outcomes used
      else if outcomes.headD false then
        let r := place_buy_ladder cfg cap rest outcomes.tail (used + notional)
        ⟨r.used, (bp, qty) :: r.placed, r.remaining⟩
      else
        let r := place_buy_ladder cfg cap rest outcomes.tail used
        ⟨r.used, r.placed, r.remaining⟩

/-- The sell-side placement loop (src/grid_bot.py lines 557-583). Levels at
or below the minimum sell price are skipped with `continue`; the budget
check compares the counted base quantity and breaks out of the loop. -/
def place_sell_ladder (cfg : GridConfig) (cap : ℚ) (min_sell : Option ℚ) :
    List ℚ → List Bool → ℚ → LadderResult
  | [], _, used => ⟨used, [], []⟩
  | ap :: rest, outcomes, used =>
    let skip : Bool := match min_sell with
      | some m => decide (ap ≤ m)
      | none => false
    if skip then place_sell_ladder cfg cap min_sell rest outcomes used
    else
      let qty := round_to cfg.base_order_size cfg.quantity_precision
      if cap < used + qty then ⟨used, [], ap :: rest⟩
      else if qty ≤ 0 then place_sell_ladder cfg cap min_sell rest outcomes used
      else if outcomes.headD false then
        let r := place_sell_ladder cfg cap min_sell rest outcomes.tail (used + qty)
        ⟨r.used, (ap, qty) :: r.placed, r.remaining⟩
      else
        let r := place_sell_ladder cfg cap min_sell rest outcomes.tail used
        ⟨r.used, r.placed, r.remaining⟩

/-- One `_adjust_orders` ladder cycle (src/grid_bot.py lines 496-583) after
risk control has passed and the open orders were cancelled: both side loops
run from a zero budget counter, each side gated by its entry condition
(`can_buy` and `can_sell`, computed from the band gates upstream). -/
def adjust_orders_ladders (cfg : GridConfig) (current_price position_cost : ℚ)
    (can_buy can_sell : Bool) (buy_outcomes sell_outcomes : List Bool) :
    LadderResult × LadderResult :=
  ((if can_buy then
      place_buy_ladder cfg (buy_usdc_cap cfg) (buy_prices cfg current_price)
        buy_outcomes 0
    else ⟨0, [], []⟩),
   (if can_sell then
      place_sell_ladder cfg (sell_base_cap cfg current_price)
        (min_sell_price cfg position_cost) (sell_prices cfg current_price)
        sell_outcomes 0
    else ⟨0, [], []⟩))

/- ===== Position cache: `BollMakerBot._get_cached_position` ===== -/

/-- The cached position dictionary `{size, avg_price}`. -/
structure CachedPosition where
  size : ℚ
  avg_price : ℚ
deriving DecidableEq

/-- A message on the database work queue (src/grid_bot.py lines 174-232):
either a cache refresh request or a fill to apply to the ledger. -/
inductive DbRequest where
  | get_position : DbRequest
  | update_position : Fill → DbRequest

/-- The cache-related state of the bot (src/grid_bot.py lines 78-81). -/
structure PositionCacheState where
  position_cache : Option CachedPosition
  last_position_update : ℚ
  position_update_interval : ℚ

/-- `BollMakerBot._get_cached_position` (src/grid_bot.py lines 242-258).
When no cached value exists or the cache is older than the refresh
interval, the call clears the event, enqueues a `get_position` request and
waits on the event for at most the one-second timeout; `cache_after_wait`
is the value of `self.position_cache` when that wait returns — refreshed by
the queue worker, or unchanged if the wait timed out. The call returns the
enqueued requests together with `self.position_cache or zero`, the cache
value when one exists and the zero position `{size 0, avg_price 0}`
otherwise. -/
def get_cached_position (s : PositionCacheState) (now : ℚ)
    (cache_after_wait : Option CachedPosition) : List DbRequest × CachedPosition :=
  if s.position_cache = none ∨
      s.position_update_interval < now - s.last_position_update then
    ([DbRequest.get_position], cache_after_wait.getD ⟨0, 0⟩)
  else
    ([], s.position_cache.getD ⟨0, 0⟩)

/- ===== Streaming client: `BackpackWSClient` (src/api/ws_client.py) ===== -/

/-- The state of the streaming client that the reconnect and subscription
logic touches (src/api/ws_client.py lines 17-52): the running and connected
flags, the heartbeat stamp, the accumulated subscription set (each entry
standing for one subscribe message, identified by its channel), and the log
of subscribe messages sent on the socket. -/
structure WSState where
  running : Bool
  connected : Bool
  last_heartbeat : ℚ
  subscriptions : List String
  sent : List String

/-- The `on_open` callback (src/api/ws_client.py lines 123-129): marks the
client connected, authenticates, and re-sends every accumulated
subscription message. -/
def ws_on_open (s : WSState) : WSState :=
  { s with connected := true, sent := s.sent ++ s.subscriptions }

/-- The `on_close` callback (src/api/ws_client.py lines 117-121). -/
def ws_on_close (s : WSState) : WSState :=
  { s with connected := false }

/-- The `on_error` callback (src/api/ws_client.py lines 112-115): marks the
client disconnected and zeroes the heartbeat stamp to force a reconnect. -/
def ws_on_error (s : WSState) : WSState :=
  { s with connected := false, last_heartbeat := 0 }

/-- The ping branch of `on_message` (src/api/ws_client.py lines 102-106):
replies with a pong and stamps the heartbeat. -/
def ws_on_ping (s : WSState) (now : ℚ) : WSState :=
  { s with last_heartbeat := now }

/-- One iteration of the `_heartbeat_check` loop body (src/api/ws_client.py
lines 154-160): when connected and the heartbeat age exceeds 30 seconds, it
calls `reconnect`, which closes the socket (the close marks the client
disconnected) and starts a new connection whose completion is the later
`ws_on_open` event. Returns the state after the iteration and whether a
reconnect was triggered. -/
def ws_heartbeat_check (s : WSState) (now : ℚ) : WSState × Bool :=
  if s.connected = true ∧ 30 < now - s.last_heartbeat then
    ({ s with connected := false }, true)
  else (s, false)

/-- The subscribe path (`subscribe_orderbook` and `subscribe_bookticker`,
src/api/ws_client.py lines 178-198): the subscribe message is appended to
the subscription set only when not already present, and is sent at once
when connected. -/
def ws_subscribe (s : WSState) (ch : String) : WSState :=
  if ch ∈ s.subscriptions then s
  else { s with subscriptions := s.subscriptions ++ [ch],
                sent := s.sent ++ (if s.connected = true then [ch] else []) }

/- ===== Indicators: `BollingerBands` (src/utils/indicators.py) ===== -/

/-- The Bollinger band calculator state (src/utils/indicators.py lines
9-20): the period, the standard-deviation multiplier and the rolling window
of closing prices. -/
structure BollingerBands where
  period : ℕ
  num_std : ℚ
  prices : List ℚ

/-- `BollingerBands.update` (src/utils/indicators.py lines 22-50): append
the price, evict the oldest sample once the window length exceeds the
period, return `(price, price, price)` while fewer than `period` samples
are held, and otherwise `(middle + k std, middle, middle - k std)` with the
mean and the population standard deviation of the window. The square root
of the population variance is modelled by `Rat.sqrt`, exact on the
zero variances this development evaluates it at. -/
def BollingerBands.update (bb : BollingerBands) (price : ℚ) :
    BollingerBands × (ℚ × ℚ × ℚ) :=
  let prices0 := bb.prices ++ [price]
  let prices1 := if bb.period < prices0.length then prices0.tail else prices0
  let bb1 : BollingerBands := ⟨bb.period, bb.num_std, prices1⟩
  if prices1.length < bb.period then (bb1, (price, price, price))
  else
    let n : ℚ := prices1.length
    let middle := prices1.sum / n
    let std := Rat.sqrt ((prices1.map (fun x => (x - middle) ^ 2)).sum / n)
    (bb1, (middle + bb.num_std * std, middle, middle - bb.num_std * std))

/-- Feed a sequence of closes through `update` in order, returning the
final state and the bands returned by the last update (zeroes for an empty
input). -/
def BollingerBands.feed (bb : BollingerBands) :
    List ℚ → BollingerBands × (ℚ × ℚ × ℚ)
  | [] => (bb, (0, 0, 0))
  | [x] => bb.update x
  | x :: xs => ((bb.update x).1).feed xs

/-- Modelled from the spec: `BollingerBands.is_ready` is called by
`BollMakerBot._update_kline_data` (src/grid_bot.py lines 784-785) but is
absent from src/utils/indicators.py; per spec section 4.1 it reports that
the window holds at least `period` samples. -/
def BollingerBands.is_ready (bb : BollingerBands) : Bool :=
  decide (bb.period ≤ bb.prices.length)

/-- Modelled from the spec: `BollingerBands.get_bands` is called by
`_calculate_dynamic_spread` and `_adjust_orders` (src/grid_bot.py lines
347 and 455-457) but is absent from src/utils/indicators.py; per spec
section 4.1 it returns the `(upper, middle, lower)` triple over the current
window, with `middle` the mean and `upper`, `lower` at `num_std` population
standard deviations. Against the class shipped in src, calling it raises
`AttributeError`, which the spread path models as the `none` input of
`calculate_dynamic_spread`. -/
def BollingerBands.get_bands (bb : BollingerBands) : ℚ × ℚ × ℚ :=
  let n : ℚ := bb.prices.length
  let middle := bb.prices.sum / n
  let std := Rat.sqrt ((bb.prices.map (fun x => (x - middle) ^ 2)).sum / n)
  (middle + bb.num_std * std, middle, middle - bb.num_std * std)

/-- Modelled from the spec: `BollingerBands.get_sma` is called by
`_calculate_dynamic_spread` (src/grid_bot.py line 371) but is absent from
src/utils/indicators.py; per the spec glossary the SMA is the band middle
line, the window mean. -/
def BollingerBands.get_sma (bb : BollingerBands) : ℚ :=
  bb.prices.sum / bb.prices.length

/- ===================== Theorems ===================== -/

theorem update_position_step_nonneg (pos : ℚ × ℚ) (f : Fill) :
    0 ≤ (update_position_step pos f).1 ∧ 0 ≤ (update_position_step pos f).2 := by
  unfold update_position_step
  by_cases h : side_is_bid f.side <;>
    simp only [h, if_true, if_false, Bool.false_eq_true] <;>
    exact ⟨le_max_left _ _, le_max_left _ _⟩

theorem ledger_states_nonneg (start : ℚ × ℚ) (h1 : 0 ≤ start.1) (h2 : 0 ≤ start.2)
    (fills : List Fill) : ∀ s ∈ ledger_states start fills, 0 ≤ s.1 ∧ 0 ≤ s.2 := by
  induction fills generalizing start with
  | nil =>
    intro s hs
    simp only [ledger_states, List.scanl, List.mem_singleton] at hs
    subst hs
    exact ⟨h1, h2⟩
  | cons f fs ih =>
    intro s hs
    simp only [ledger_states, List.scanl, List.mem_cons] at hs
    rcases hs with rfl | hs
    · exact ⟨h1, h2⟩
    · exact ih _ (update_position_step_nonneg start f).1
        (update_position_step_nonneg start f).2 s hs

/-- C1: starting from the zero position, the stored position size and cost
are non-negative after every step of the ledger update path, for every
finite sequence of buy and sell fills processed in order. -/
theorem C1_ledger_nonneg (fills : List Fill) :
    ∀ s ∈ ledger_states (0, 0) fills, 0 ≤ s.1 ∧ 0 ≤ s.2 :=
  ledger_states_nonneg (0, 0) le_rfl le_rfl fills

theorem side_is_bid_eval : side_is_bid "Bid" = true ∧ side_is_bid "Ask" = false := by
  decide

theorem ledger_states_example :
    ((2 : ℚ), (6 : ℚ)) ∈ ledger_states (0, 0) [⟨"Bid", 2, 3⟩, ⟨"Ask", 5, 4⟩] := by
  simp only [ledger_states, List.scanl, update_position_step, side_is_bid_eval.1,
    side_is_bid_eval.2, List.mem_cons]
  norm_num

/-- C1 witness: a concrete fill sequence (a buy of 2 at 3 and an oversell of
5 at 4) visits the state `(2, 6)`, which the theorem shows non-negative. -/
theorem C1_ledger_nonneg_witness :
    ((2 : ℚ), (6 : ℚ)) ∈ ledger_states (0, 0) [⟨"Bid", 2, 3⟩, ⟨"Ask", 5, 4⟩] ∧
    (0 ≤ ((2 : ℚ), (6 : ℚ)).1 ∧ 0 ≤ ((2 : ℚ), (6 : ℚ)).2) :=
  ⟨ledger_states_example,
   C1_ledger_nonneg [⟨"Bid", 2, 3⟩, ⟨"Ask", 5, 4⟩] (2, 6) ledger_states_example⟩

/-- C2: for a current position with `size >= 0` and `cost >= 0`, the ledger
step on a `Bid` fill realises the additive buy formula and on an `Ask` fill
the proportional-cost-reduction sell formula, each clamped at zero. -/
theorem C2_fill_formulas (size cost q p : ℚ) (hs : 0 ≤ size) (hc : 0 ≤ cost) :
    update_position_step (size, cost) ⟨"Bid", q, p⟩ = spec_buy_fill size cost q p ∧
    update_position_step (size, cost) ⟨"Ask", q, p⟩ = spec_sell_fill size cost q := by
  have hbid : side_is_bid "Bid" = true := by decide
  have hask : side_is_bid "Ask" = false := by decide
  constructor
  · simp [update_position_step, spec_buy_fill, hbid]
  · simp [update_position_step, spec_sell_fill, hask]

/-- C2 witness: the theorem applied at size 3, cost 5, quantity 2, price 7. -/
theorem C2_fill_formulas_witness :
    (0 ≤ (3 : ℚ) ∧ 0 ≤ (5 : ℚ)) ∧
    (update_position_step (3, 5) ⟨"Bid", 2, 7⟩ = spec_buy_fill 3 5 2 7 ∧
     update_position_step (3, 5) ⟨"Ask", 2, 7⟩ = spec_sell_fill 3 5 2) :=
  ⟨⟨by norm_num, by norm_num⟩, C2_fill_formulas 3 5 2 7 (by norm_num) (by norm_num)⟩

/-- C3 counterexample: with the thresholds configured in src/config.py
(activation 2 percent, stop-loss 3 percent, take-profit 0.8 percent),
price 101 against cost 100 gives `|roi| = 1 percent`, strictly below the
activation threshold, yet the code closes the position once and returns
"do not trade" — refuting the claim that a close is triggered only when
`|roi| >= stop_loss_activation`. -/
theorem C3_risk_control_counterexample :
    check_risk_control ⟨2/100, 3/100, 8/1000⟩ 101 100 = (false, 1) ∧
    ¬ ((2 : ℚ)/100 ≤ |((101 : ℚ) - 100) / 100|) := by
  have h1 : ((101 : ℚ) - 100) / 100 = 1/100 := by norm_num
  have h2 : |((1 : ℚ)/100)| = 1/100 := abs_of_nonneg (by norm_num)
  constructor
  · simp only [check_risk_control, h1, h2]
    norm_num
  · rw [h1, h2]
    norm_num

/-- C3 (amended): for `cost > 0` the control closes (once) and returns
"do not trade" exactly when the stop-loss condition
`|roi| >= activation and roi < 0 and |roi| >= stop_loss_ratio` holds or the
ungated take-profit condition `roi >= take_profit_ratio` holds; otherwise it
returns "continue trading" with no close. With activation 2 percent,
stop-loss 3 percent and take-profit 3 percent: cost 100 and price 97
trigger exactly one close and return false, while cost 100 and price 101
trigger no close. -/
theorem C3_risk_control_amended (cfg : RiskConfig) (price cost : ℚ) (hc : 0 < cost) :
    (check_risk_control cfg price cost =
      (if (cfg.stop_loss_activation ≤ |(price - cost) / cost| ∧ (price - cost) / cost < 0 ∧
            cfg.stop_loss_ratio ≤ |(price - cost) / cost|) ∨
          cfg.take_profit_ratio ≤ (price - cost) / cost
       then (false, 1) else (true, 0))) ∧
    check_risk_control ⟨2/100, 3/100, 3/100⟩ 97 100 = (false, 1) ∧
    check_risk_control ⟨2/100, 3/100, 3/100⟩ 101 100 = (true, 0) := by
  have e97 : ((97 : ℚ) - 100) / 100 = -(3/100) := by norm_num
  have a97 : |(-((3 : ℚ)/100))| = 3/100 := by
    rw [abs_neg]
    exact abs_of_nonneg (by norm_num)
  have e101 : ((101 : ℚ) - 100) / 100 = 1/100 := by norm_num
  have a101 : |((1 : ℚ)/100)| = 1/100 := abs_of_nonneg (by norm_num)
  refine ⟨?_, ?_, ?_⟩
  case refine_2 =>
    simp only [check_risk_control, e97, a97]
    norm_num
  case refine_3 =>
    simp only [check_risk_control, e101, a101]
    norm_num
  have hnc : ¬ cost ≤ 0 := not_le.mpr hc
  by_cases hsl : cfg.stop_loss_activation ≤ |(price - cost) / cost| ∧ (price - cost) / cost < 0 ∧
      cfg.stop_loss_ratio ≤ |(price - cost) / cost|
  · simp [check_risk_control, hnc, hsl]
  · by_cases htp : cfg.take_profit_ratio ≤ (price - cost) / cost
    · simp [check_risk_control, hnc, hsl, htp]
    · simp [check_risk_control, hnc, hsl, htp]

theorem base_spread_mem (cfg : SpreadConfig) (h : cfg.spread_min ≤ cfg.spread_max) (v : ℚ) :
    cfg.spread_min ≤ base_spread cfg v ∧ base_spread cfg v ≤ cfg.spread_max := by
  unfold base_spread
  split_ifs with h1 h2
  · exact ⟨le_rfl, h⟩
  · exact ⟨h, le_rfl⟩
  · have hd : (0 : ℚ) < 5/100 - 25/10000 := by norm_num
    have hn0 : 0 ≤ (v - 25/10000) / (5/100 - 25/10000) :=
      div_nonneg (by linarith) (le_of_lt hd)
    have hn1 : (v - 25/10000) / (5/100 - 25/10000) ≤ 1 := by
      rw [div_le_one hd]
      linarith
    have hr : 0 ≤ cfg.spread_max - cfg.spread_min := by linarith
    constructor
    · nlinarith
    · nlinarith

theorem base_spread_mono (cfg : SpreadConfig) (h : cfg.spread_min ≤ cfg.spread_max)
    {v1 v2 : ℚ} (hv : v1 ≤ v2) : base_spread cfg v1 ≤ base_spread cfg v2 := by
  rcases le_or_lt v2 (25/10000) with hv2 | hv2
  · rw [show base_spread cfg v1 = cfg.spread_min by unfold base_spread ; rw [if_pos (le_trans hv hv2)],
      show base_spread cfg v2 = cfg.spread_min by unfold base_spread ; rw [if_pos hv2]]
  · rcases le_or_lt (5/100 : ℚ) v1 with hv1 | hv1
    · have e1 : base_spread cfg v1 = cfg.spread_max := by
        unfold base_spread
        rw [if_neg (by linarith), if_pos hv1]
      have e2 : base_spread cfg v2 = cfg.spread_max := by
        unfold base_spread
        rw [if_neg (by linarith), if_pos (le_trans hv1 hv)]
      rw [e1, e2]
    · calc base_spread cfg v1 ≤ base_spread cfg (min v2 (5/100)) := by
            rcases le_or_lt v1 (25/10000) with hl | hl
            · rw [show base_spread cfg v1 = cfg.spread_min by unfold base_spread ; rw [if_pos hl]]
              exact (base_spread_mem cfg h _).1
            · have e1 : base_spread cfg v1 = cfg.spread_min +
                  (cfg.spread_max - cfg.spread_min) * ((v1 - 25/10000) / (5/100 - 25/10000)) := by
                unfold base_spread
                rw [if_neg (by linarith), if_neg (by linarith)]
              have hm : 25/10000 < min v2 (5/100) := lt_min (by linarith) (by norm_num)
              rcases le_or_lt (5/100 : ℚ) (min v2 (5/100)) with hmm | hmm
              · have e2 : base_spread cfg (min v2 (5/100)) = cfg.spread_max := by
                  unfold base_spread
                  rw [if_neg (by linarith), if_pos hmm]
                rw [e1, e2]
                have := (base_spread_mem cfg h v1).2
                rw [e1] at this
                exact this
              · have e2 : base_spread cfg (min v2 (5/100)) = cfg.spread_min +
                    (cfg.spread_max - cfg.spread_min) *
                      ((min v2 (5/100) - 25/10000) / (5/100 - 25/10000)) := by
                  unfold base_spread
                  rw [if_neg (by linarith), if_neg (by linarith)]
                rw [e1, e2]
                have hd : (0 : ℚ) < 5/100 - 25/10000 := by norm_num
                have hle : v1 ≤ min v2 (5/100) := le_min hv (by linarith)
                have hdiv : (v1 - 25/10000) / (5/100 - 25/10000) ≤
                    (min v2 (5/100) - 25/10000) / (5/100 - 25/10000) :=
                  (div_le_div_iff_of_pos_right hd).mpr (by linarith)
                nlinarith
          _ ≤ base_spread cfg v2 := by
            rcases le_or_lt (5/100 : ℚ) v2 with hh | hh
            · rw [min_eq_right hh]
              have e2 : base_spread cfg v2 = cfg.spread_max := by
                unfold base_spread
                rw [if_neg (by linarith), if_pos hh]
              calc base_spread cfg (5/100) ≤ cfg.spread_max := (base_spread_mem cfg h _).2
                _ = base_spread cfg v2 := e2.symm
            · rw [min_eq_left (le_of_lt hh)]

theorem clamp_spread_mem (cfg : SpreadConfig) (h : cfg.spread_min ≤ cfg.spread_max) (x : ℚ) :
    cfg.spread_min ≤ clamp_spread cfg x ∧ clamp_spread cfg x ≤ cfg.spread_max :=
  ⟨le_max_right _ _, max_le (min_le_right _ _) h⟩

theorem clamp_spread_mono (cfg : SpreadConfig) {x y : ℚ} (hxy : x ≤ y) :
    clamp_spread cfg x ≤ clamp_spread cfg y :=
  max_le_max (min_le_min hxy le_rfl) le_rfl

theorem clamp_spread_eq_self (cfg : SpreadConfig) {x : ℚ}
    (h1 : cfg.spread_min ≤ x) (h2 : x ≤ cfg.spread_max) : clamp_spread cfg x = x := by
  unfold clamp_spread
  rw [min_eq_left h2, max_eq_left h1]

theorem calculate_dynamic_spread_no_skew (cfg : SpreadConfig) (price u m l : ℚ)
    (sma : Option ℚ) (hdyn : cfg.dynamic_spread = true) (hskew : cfg.trend_skew = false) :
    calculate_dynamic_spread cfg price (some (u, m, l)) sma =
      (clamp_spread cfg (base_spread cfg (|u - l| / price)),
       clamp_spread cfg (base_spread cfg (|u - l| / price))) := by
  simp [calculate_dynamic_spread, hdyn, hskew]

/-- C3 witness: the amended theorem applied at the spec example, cost 100
and price 97 with activation 2 percent and stop-loss 3 percent. -/
theorem C3_risk_control_amended_witness :
    0 < (100 : ℚ) ∧
    check_risk_control ⟨2/100, 3/100, 3/100⟩ 97 100 = (false, 1) ∧
    check_risk_control ⟨2/100, 3/100, 3/100⟩ 101 100 = (true, 0) :=
  ⟨by norm_num, (C3_risk_control_amended ⟨2/100, 3/100, 3/100⟩ 97 100 (by norm_num)).2⟩

/-- C5: with dynamic spread enabled and trend skew disabled, the spread
returned by `_calculate_dynamic_spread` is the same on the ask and bid
sides, lies in `[SPREAD_MIN, SPREAD_MAX]`, is non-decreasing in the
volatility `(short_upper - short_lower) / price`, equals `SPREAD_MIN` for
volatility at or below `0.0025`, equals `SPREAD_MAX` at or above `0.05`,
and strictly between them equals the linear interpolation; volatility
`0.04` with `SPREAD_MIN = 0.001` and `SPREAD_MAX = 0.002` yields exactly
`17/9500 = 0.0017894...`. -/
theorem C5_dynamic_spread (cfg : SpreadConfig) (price u1 l1 u2 l2 m1 m2 : ℚ)
    (sma1 sma2 : Option ℚ)
    (hdyn : cfg.dynamic_spread = true) (hskew : cfg.trend_skew = false)
    (hp : 0 < price) (hrange : cfg.spread_min ≤ cfg.spread_max)
    (hb1 : l1 ≤ u1) (hb2 : l2 ≤ u2)
    (hvol : (u1 - l1) / price ≤ (u2 - l2) / price) :
    ((calculate_dynamic_spread cfg price (some (u1, m1, l1)) sma1).2 =
      (calculate_dynamic_spread cfg price (some (u1, m1, l1)) sma1).1) ∧
    (cfg.spread_min ≤ (calculate_dynamic_spread cfg price (some (u1, m1, l1)) sma1).1 ∧
      (calculate_dynamic_spread cfg price (some (u1, m1, l1)) sma1).1 ≤ cfg.spread_max) ∧
    ((calculate_dynamic_spread cfg price (some (u1, m1, l1)) sma1).1 ≤
      (calculate_dynamic_spread cfg price (some (u2, m2, l2)) sma2).1) ∧
    ((u1 - l1) / price ≤ 25/10000 →
      (calculate_dynamic_spread cfg price (some (u1, m1, l1)) sma1).1 = cfg.spread_min) ∧
    (5/100 ≤ (u1 - l1) / price →
      (calculate_dynamic_spread cfg price (some (u1, m1, l1)) sma1).1 = cfg.spread_max) ∧
    (25/10000 < (u1 - l1) / price → (u1 - l1) / price < 5/100 →
      (calculate_dynamic_spread cfg price (some (u1, m1, l1)) sma1).1 =
        cfg.spread_min + (cfg.spread_max - cfg.spread_min) *
          (((u1 - l1) / price - 25/10000) / (5/100 - 25/10000))) ∧
    calculate_dynamic_spread ⟨true, 0, 1/1000, 2/1000, false, 0, 0⟩ 100
      (some (102, 100, 98)) none = (17/9500, 17/9500) := by
  have habs1 : |u1 - l1| = u1 - l1 := abs_of_nonneg (sub_nonneg.mpr hb1)
  have habs2 : |u2 - l2| = u2 - l2 := abs_of_nonneg (sub_nonneg.mpr hb2)
  have he1 := calculate_dynamic_spread_no_skew cfg price u1 m1 l1 sma1 hdyn hskew
  have he2 := calculate_dynamic_spread_no_skew cfg price u2 m2 l2 sma2 hdyn hskew
  rw [habs1] at he1
  rw [habs2] at he2
  refine ⟨?_, ?_, ?_, ?_, ?_, ?_, ?_⟩
  · rw [he1]
  · rw [he1]
    exact clamp_spread_mem cfg hrange _
  · rw [he1, he2]
    exact clamp_spread_mono cfg (base_spread_mono cfg hrange hvol)
  · intro hlo
    rw [he1]
    have hb : base_spread cfg ((u1 - l1) / price) = cfg.spread_min := by
      unfold base_spread
      rw [if_pos hlo]
    rw [hb]
    exact clamp_spread_eq_self cfg le_rfl hrange
  · intro hhi
    rw [he1]
    have hb : base_spread cfg ((u1 - l1) / price) = cfg.spread_max := by
      unfold base_spread
      rw [if_neg (by linarith), if_pos hhi]
    rw [hb]
    exact clamp_spread_eq_self cfg hrange le_rfl
  · intro hm1 hm2
    rw [he1]
    have hb : base_spread cfg ((u1 - l1) / price) = cfg.spread_min +
        (cfg.spread_max - cfg.spread_min) *
          (((u1 - l1) / price - 25/10000) / (5/100 - 25/10000)) := by
      unfold base_spread
      rw [if_neg (by linarith), if_neg (by linarith)]
    have hmem := base_spread_mem cfg hrange ((u1 - l1) / price)
    rw [hb] at hmem ⊢
    exact clamp_spread_eq_self cfg hmem.1 hmem.2
  · have h4 : |(102 : ℚ) - 98| = 4 := by
      rw [show (102 : ℚ) - 98 = 4 by norm_num]
      exact abs_of_nonneg (by norm_num)
    have he : calculate_dynamic_spread ⟨true, 0, 1/1000, 2/1000, false, 0, 0⟩ 100
        (some (102, 100, 98)) none =
        (clamp_spread ⟨true, 0, 1/1000, 2/1000, false, 0, 0⟩
          (base_spread ⟨true, 0, 1/1000, 2/1000, false, 0, 0⟩ (|(102 : ℚ) - 98| / 100)),
         clamp_spread ⟨true, 0, 1/1000, 2/1000, false, 0, 0⟩
          (base_spread ⟨true, 0, 1/1000, 2/1000, false, 0, 0⟩ (|(102 : ℚ) - 98| / 100))) :=
      calculate_dynamic_spread_no_skew _ 100 102 100 98 none rfl rfl
    rw [he, h4]
    have hbv : base_spread ⟨true, 0, 1/1000, 2/1000, false, 0, 0⟩ ((4 : ℚ) / 100) =
        17/9500 := by
      unfold base_spread
      rw [if_neg (by norm_num), if_neg (by norm_num)]
      norm_num
    rw [hbv]
    have hcl : clamp_spread ⟨true, 0, 1/1000, 2/1000, false, 0, 0⟩ ((17 : ℚ)/9500) =
        17/9500 := clamp_spread_eq_self _ (by norm_num) (by norm_num)
    rw [hcl]

/-- C5 witness: the theorem applied at price 100 with the short band
`(102, 100, 98)` on both sides and the configuration of the spec example. -/
theorem C5_dynamic_spread_witness :
    (0 : ℚ) < 100 ∧ (1 : ℚ)/1000 ≤ 2/1000 ∧
    calculate_dynamic_spread ⟨true, 0, 1/1000, 2/1000, false, 0, 0⟩ 100
      (some (102, 100, 98)) none = (17/9500, 17/9500) :=
  ⟨by norm_num, by norm_num,
    (C5_dynamic_spread ⟨true, 0, 1/1000, 2/1000, false, 0, 0⟩ 100 102 98 102 98 100 100
      none none rfl rfl (by norm_num) (by norm_num) (by norm_num) (by norm_num)
      le_rfl).2.2.2.2.2.2⟩

theorem calculate_dynamic_spread_static_fallback (cfg : SpreadConfig) (price : ℚ)
    (bands : Option (ℚ × ℚ × ℚ)) (sma : Option ℚ)
    (h : cfg.dynamic_spread = false ∨ bands = none ∨
      (cfg.trend_skew = true ∧ sma = none)) :
    calculate_dynamic_spread cfg price bands sma = (cfg.spread, cfg.spread) := by
  rcases h with h | h | ⟨h1, h2⟩
  · simp [calculate_dynamic_spread, h]
  · subst h
    by_cases hd : cfg.dynamic_spread = false <;> simp [calculate_dynamic_spread, hd]
  · subst h2
    by_cases hd : cfg.dynamic_spread = false
    · simp [calculate_dynamic_spread, hd]
    · rcases bands with _ | ⟨⟨u, m, l⟩⟩ <;> simp [calculate_dynamic_spread, hd, h1]

theorem calculate_dynamic_spread_dict_some (cfg : SpreadDictConfig) (sp : ℚ)
    (hsp : cfg.spread_entry = some sp) (price : ℚ)
    (bands : Option (ℚ × ℚ × ℚ)) (sma : Option ℚ) :
    calculate_dynamic_spread_dict cfg price bands sma =
      some (calculate_dynamic_spread (cfg.core sp) price bands sma) := by
  by_cases hd : cfg.dynamic_spread = false
  · simp [calculate_dynamic_spread_dict, calculate_dynamic_spread,
      SpreadDictConfig.core, hd, hsp]
  · rcases bands with _ | ⟨⟨u, m, l⟩⟩
    · simp [calculate_dynamic_spread_dict, calculate_dynamic_spread,
        SpreadDictConfig.core, hd, hsp]
    · by_cases hts : cfg.trend_skew = true
      · rcases sma with _ | s
        · simp [calculate_dynamic_spread_dict, calculate_dynamic_spread,
            SpreadDictConfig.core, hd, hts, hsp]
        · by_cases hlt : s < price <;>
            simp [calculate_dynamic_spread_dict, calculate_dynamic_spread,
              SpreadDictConfig.core, hd, hts, hlt, hsp] <;>
            exact ⟨rfl, rfl⟩
      · simp only [calculate_dynamic_spread_dict, calculate_dynamic_spread,
          SpreadDictConfig.core, hd, hts, hsp, Bool.false_eq_true, if_false,
          Option.some.injEq]
        rfl

/-- C10 counterexample: in the configuration built by the module's
`__main__` block the spread value is stored under `GRID_SPREAD`
(src/grid_bot.py line 1105), so the `SPREAD` entry is absent; with dynamic
spread enabled and trend skew on (the src/config.py defaults) and the band
accessor missing, as it is in src/utils/indicators.py, the `except`
handler performs the `self.config` lookup of the `SPREAD` key itself and
raises `KeyError` — the call propagates an exception (`none`) instead of
returning the static pair, refuting the claim at this concrete reachable
state. -/
theorem C10_spread_fallback_counterexample :
    calculate_dynamic_spread_dict ⟨true, none, 22/100000, 1/1000, true, 8/10, 12/10⟩
      100 none none = none ∧
    (⟨true, none, 22/100000, 1/1000, true, 8/10, 12/10⟩ :
      SpreadDictConfig).spread_entry = none := by
  constructor
  · simp [calculate_dynamic_spread_dict]
  · rfl

/-- C10 (amended): for every positive current price, whenever the
configuration defines the `SPREAD` key the function propagates no
exception (it always returns a pair of spreads), and if additionally
dynamic spread is disabled, or the short-band object lacks `get_bands`
(bands = none), or trend skew is enabled and it lacks `get_sma`
(sma = none), both returned spreads equal that configured `SPREAD` value;
when the `SPREAD` key is absent — as in the configuration built by the
module's `__main__` block, which stores it under `GRID_SPREAD` — each of
those fallback paths instead propagates the `KeyError` raised by the
handler's own config lookup. -/
theorem C10_spread_fallback (cfg : SpreadDictConfig) (price : ℚ)
    (bands : Option (ℚ × ℚ × ℚ)) (sma : Option ℚ) (sp : ℚ)
    (hp : 0 < price) :
    (cfg.spread_entry = some sp →
      (calculate_dynamic_spread_dict cfg price bands sma).isSome = true) ∧
    (cfg.spread_entry = some sp →
      (cfg.dynamic_spread = false ∨ bands = none ∨
        (cfg.trend_skew = true ∧ sma = none)) →
      calculate_dynamic_spread_dict cfg price bands sma = some (sp, sp)) ∧
    (cfg.spread_entry = none →
      (cfg.dynamic_spread = false ∨ bands = none ∨
        (cfg.trend_skew = true ∧ sma = none)) →
      calculate_dynamic_spread_dict cfg price bands sma = none) := by
  refine ⟨?_, ?_, ?_⟩
  · intro hsp
    rw [calculate_dynamic_spread_dict_some cfg sp hsp price bands sma]
    rfl
  · intro hsp h
    rw [calculate_dynamic_spread_dict_some cfg sp hsp price bands sma]
    exact congrArg some
      (calculate_dynamic_spread_static_fallback (cfg.core sp) price bands sma h)
  · intro hnone h
    rcases h with h | h | ⟨h1, h2⟩
    · simp [calculate_dynamic_spread_dict, h, hnone]
    · subst h
      by_cases hd : cfg.dynamic_spread = false <;>
        simp [calculate_dynamic_spread_dict, hd, hnone]
    · subst h2
      by_cases hd : cfg.dynamic_spread = false
      · simp [calculate_dynamic_spread_dict, hd, hnone]
      · rcases bands with _ | ⟨⟨u, m, l⟩⟩ <;>
          simp [calculate_dynamic_spread_dict, hd, h1, hnone]

/-- C10 witness: the amended theorem applied to a configuration that
defines the `SPREAD` key as 7 with dynamic spread disabled, and to the
key-absent configuration with a missing band accessor. -/
theorem C10_spread_fallback_witness :
    0 < (1 : ℚ) ∧
    calculate_dynamic_spread_dict ⟨false, some 7, 0, 0, false, 0, 0⟩ 1 none none =
      some (7, 7) ∧
    calculate_dynamic_spread_dict ⟨true, none, 0, 0, false, 0, 0⟩ 1 none none = none :=
  ⟨by norm_num,
   (C10_spread_fallback ⟨false, some 7, 0, 0, false, 0, 0⟩ 1 none none 7
      (by norm_num)).2.1 rfl (Or.inl rfl),
   (C10_spread_fallback ⟨true, none, 0, 0, false, 0, 0⟩ 1 none none 0
      (by norm_num)).2.2 rfl (Or.inr (Or.inl rfl))⟩

theorem clamp01_mem (x : ℚ) : 0 ≤ clamp01 x ∧ clamp01 x ≤ 1 :=
  ⟨le_max_left _ _, max_le zero_le_one (min_le_left _ _)⟩

theorem clamp01_mono {x y : ℚ} (h : x ≤ y) : clamp01 x ≤ clamp01 y :=
  max_le_max le_rfl (min_le_min le_rfl h)

theorem clamp01_of_nonpos {x : ℚ} (h : x ≤ 0) : clamp01 x = 0 := by
  unfold clamp01
  rw [max_eq_left (le_trans (min_le_right _ _) h)]

theorem clamp01_of_one_le {x : ℚ} (h : 1 ≤ x) : clamp01 x = 1 := by
  unfold clamp01
  rw [min_eq_left h, max_eq_right zero_le_one]

theorem calculate_position_scale_eq (cfg : ScaleConfig) (p lu ll su sl : ℚ)
    (h0 : lu ≠ 0 ∧ ll ≠ 0 ∧ su ≠ 0 ∧ sl ≠ 0)
    (hlr : 1/10000 < lu - ll) (hsr : 1/10000 < su - sl) :
    calculate_position_scale cfg p lu ll su sl =
      cfg.min_position_scale + (cfg.max_position_scale - cfg.min_position_scale) *
        (((1 - clamp01 ((p - ll) / (lu - ll))) + (1 - clamp01 ((p - sl) / (su - sl)))) / 2) := by
  unfold calculate_position_scale
  rw [if_neg (by push_neg ; exact h0), if_neg (by push_neg ; constructor <;> linarith)]

/-- C6: with both band ranges above `0.0001` and all four band boundaries
non-zero, the position scale equals `max_scale` for every price at or below
both lower bounds, equals `min_scale` at or above both upper bounds, always
lies in `[min_scale, max_scale]`, and is monotonically decreasing in the
price. -/
theorem C6_position_scale (cfg : ScaleConfig) (lu ll su sl : ℚ)
    (h0 : lu ≠ 0 ∧ ll ≠ 0 ∧ su ≠ 0 ∧ sl ≠ 0)
    (hlr : 1/10000 < lu - ll) (hsr : 1/10000 < su - sl)
    (hms : cfg.min_position_scale ≤ cfg.max_position_scale) :
    (∀ p, p ≤ ll → p ≤ sl →
      calculate_position_scale cfg p lu ll su sl = cfg.max_position_scale) ∧
    (∀ p, lu ≤ p → su ≤ p →
      calculate_position_scale cfg p lu ll su sl = cfg.min_position_scale) ∧
    (∀ p, cfg.min_position_scale ≤ calculate_position_scale cfg p lu ll su sl ∧
      calculate_position_scale cfg p lu ll su sl ≤ cfg.max_position_scale) ∧
    (∀ p1 p2, p1 ≤ p2 →
      calculate_position_scale cfg p2 lu ll su sl ≤
        calculate_position_scale cfg p1 lu ll su sl) := by
  have hlr0 : (0 : ℚ) < lu - ll := by linarith
  have hsr0 : (0 : ℚ) < su - sl := by linarith
  refine ⟨?_, ?_, ?_, ?_⟩
  · intro p hp1 hp2
    rw [calculate_position_scale_eq cfg p lu ll su sl h0 hlr hsr]
    have c1 : clamp01 ((p - ll) / (lu - ll)) = 0 :=
      clamp01_of_nonpos (div_nonpos_iff.mpr (Or.inr ⟨by linarith, by linarith⟩))
    have c2 : clamp01 ((p - sl) / (su - sl)) = 0 :=
      clamp01_of_nonpos (div_nonpos_iff.mpr (Or.inr ⟨by linarith, by linarith⟩))
    rw [c1, c2]
    ring
  · intro p hp1 hp2
    rw [calculate_position_scale_eq cfg p lu ll su sl h0 hlr hsr]
    have c1 : clamp01 ((p - ll) / (lu - ll)) = 1 :=
      clamp01_of_one_le ((one_le_div hlr0).mpr (by linarith))
    have c2 : clamp01 ((p - sl) / (su - sl)) = 1 :=
      clamp01_of_one_le ((one_le_div hsr0).mpr (by linarith))
    rw [c1, c2]
    ring
  · intro p
    rw [calculate_position_scale_eq cfg p lu ll su sl h0 hlr hsr]
    have m1 := clamp01_mem ((p - ll) / (lu - ll))
    have m2 := clamp01_mem ((p - sl) / (su - sl))
    constructor
    · nlinarith [m1.1, m1.2, m2.1, m2.2]
    · nlinarith [m1.1, m1.2, m2.1, m2.2]
  · intro p1 p2 hp
    rw [calculate_position_scale_eq cfg p1 lu ll su sl h0 hlr hsr,
      calculate_position_scale_eq cfg p2 lu ll su sl h0 hlr hsr]
    have d1 : (p1 - ll) / (lu - ll) ≤ (p2 - ll) / (lu - ll) :=
      (div_le_div_iff_of_pos_right hlr0).mpr (by linarith)
    have d2 : (p1 - sl) / (su - sl) ≤ (p2 - sl) / (su - sl) :=
      (div_le_div_iff_of_pos_right hsr0).mpr (by linarith)
    have c1 := clamp01_mono d1
    have c2 := clamp01_mono d2
    nlinarith [c1, c2]

/-- C6 witness: the theorem applied to the bands of the repository test
(long 110/90, short 105/95, scales 1 to 10), saturating to the maximum scale at price 85. -/
theorem C6_position_scale_witness :
    (1 : ℚ)/10000 < 110 - 90 ∧
    calculate_position_scale ⟨1, 10⟩ 85 110 90 105 95 = 10 :=
  ⟨by norm_num,
    (C6_position_scale ⟨1, 10⟩ 110 90 105 95
      ⟨by norm_num, by norm_num, by norm_num, by norm_num⟩
      (by norm_num) (by norm_num) (by norm_num)).1 85 (by norm_num) (by norm_num)⟩

theorem place_buy_ladder_used_le (cfg : GridConfig) (cap : ℚ) (lvls : List ℚ) :
    ∀ (outs : List Bool) (used : ℚ), used ≤ cap →
      (place_buy_ladder cfg cap lvls outs used).used ≤ cap := by
  induction lvls with
  | nil =>
    intro outs used h
    simpa [place_buy_ladder] using h
  | cons bp rest ih =>
    intro outs used h
    simp only [place_buy_ladder]
    split_ifs with hbreak hqty hok
    · exact h
    · exact ih outs used h
    · exact ih outs.tail (used + bp * cfg.base_order_size) (not_lt.mp hbreak)
    · exact ih outs.tail used h

theorem place_buy_ladder_used_eq (cfg : GridConfig) (cap : ℚ) (lvls : List ℚ) :
    ∀ (outs : List Bool) (used : ℚ),
      (place_buy_ladder cfg cap lvls outs used).used =
        used + (((place_buy_ladder cfg cap lvls outs used).placed.map
          (fun o => o.1 * cfg.base_order_size)).sum) := by
  induction lvls with
  | nil =>
    intro outs used
    simp [place_buy_ladder]
  | cons bp rest ih =>
    intro outs used
    simp only [place_buy_ladder]
    split_ifs with hbreak hqty hok
    · simp
    · exact ih outs used
    · simp only [List.map_cons, List.sum_cons]
      rw [ih outs.tail (used + bp * cfg.base_order_size)]
      ring
    · exact ih outs.tail used

theorem place_buy_ladder_decomp (cfg : GridConfig) (cap : ℚ) (lvls : List ℚ) :
    ∀ (outs : List Bool) (used : ℚ), ∃ pre : List ℚ,
      lvls = pre ++ (place_buy_ladder cfg cap lvls outs used).remaining ∧
      ∀ o ∈ (place_buy_ladder cfg cap lvls outs used).placed, o.1 ∈ pre := by
  induction lvls with
  | nil =>
    intro outs used
    exact ⟨[], by simp [place_buy_ladder], by simp [place_buy_ladder]⟩
  | cons bp rest ih =>
    intro outs used
    simp only [place_buy_ladder]
    split_ifs with hbreak hqty hok
    · exact ⟨[], by simp, by simp⟩
    · obtain ⟨pre, hpre, hplaced⟩ := ih outs used
      exact ⟨bp :: pre, by rw [List.cons_append, ← hpre],
        fun o ho => List.mem_cons_of_mem bp (hplaced o ho)⟩
    · obtain ⟨pre, hpre, hplaced⟩ := ih outs.tail (used + bp * cfg.base_order_size)
      refine ⟨bp :: pre, by rw [List.cons_append, ← hpre], ?_⟩
      intro o ho
      simp only [List.mem_cons] at ho
      rcases ho with rfl | ho
      · exact List.mem_cons_self bp pre
      · exact List.mem_cons_of_mem bp (hplaced o ho)
    · obtain ⟨pre, hpre, hplaced⟩ := ih outs.tail used
      exact ⟨bp :: pre, by rw [List.cons_append, ← hpre],
        fun o ho => List.mem_cons_of_mem bp (hplaced o ho)⟩

theorem place_buy_ladder_breach (cfg : GridConfig) (cap : ℚ) (lvls : List ℚ) :
    ∀ (outs : List Bool) (used : ℚ) (bp2 : ℚ) (rest2 : List ℚ),
      (place_buy_ladder cfg cap lvls outs used).remaining = bp2 :: rest2 →
      cap < (place_buy_ladder cfg cap lvls outs used).used +
        bp2 * cfg.base_order_size := by
  induction lvls with
  | nil =>
    intro outs used bp2 rest2 h
    simp [place_buy_ladder] at h
  | cons bp rest ih =>
    intro outs used bp2 rest2 h
    simp only [place_buy_ladder] at h ⊢
    split_ifs at h ⊢ with hbreak hqty hok
    · have h2 : bp :: rest = bp2 :: rest2 := h
      injection h2 with he1 he2
      subst he1
      exact hbreak
    · exact ih outs used bp2 rest2 h
    · exact ih outs.tail (used + bp * cfg.base_order_size) bp2 rest2 h
    · exact ih outs.tail used bp2 rest2 h

theorem place_sell_ladder_used_le (cfg : GridConfig) (cap : ℚ) (ms : Option ℚ)
    (lvls : List ℚ) :
    ∀ (outs : List Bool) (used : ℚ), used ≤ cap →
      (place_sell_ladder cfg cap ms lvls outs used).used ≤ cap := by
  induction lvls with
  | nil =>
    intro outs used h
    simpa [place_sell_ladder] using h
  | cons ap rest ih =>
    intro outs used h
    simp only [place_sell_ladder]
    split_ifs with hskip hbreak hqty hok
    · exact ih outs used h
    · exact h
    · exact ih outs used h
    · exact ih outs.tail
        (used + round_to cfg.base_order_size cfg.quantity_precision) (not_lt.mp hbreak)
    · exact ih outs.tail used h

theorem place_sell_ladder_used_eq (cfg : GridConfig) (cap : ℚ) (ms : Option ℚ)
    (lvls : List ℚ) :
    ∀ (outs : List Bool) (used : ℚ),
      (place_sell_ladder cfg cap ms lvls outs used).used =
        used + (((place_sell_ladder cfg cap ms lvls outs used).placed.map
          (fun o => o.2)).sum) := by
  induction lvls with
  | nil =>
    intro outs used
    simp [place_sell_ladder]
  | cons ap rest ih =>
    intro outs used
    simp only [place_sell_ladder]
    split_ifs with hskip hbreak hqty hok
    · exact ih outs used
    · simp
    · exact ih outs used
    · simp only [List.map_cons, List.sum_cons]
      rw [ih outs.tail (used + round_to cfg.base_order_size cfg.quantity_precision)]
      ring
    · exact ih outs.tail used

theorem place_sell_ladder_decomp (cfg : GridConfig) (cap : ℚ) (ms : Option ℚ)
    (lvls : List ℚ) :
    ∀ (outs : List Bool) (used : ℚ), ∃ pre : List ℚ,
      lvls = pre ++ (place_sell_ladder cfg cap ms lvls outs used).remaining ∧
      ∀ o ∈ (place_sell_ladder cfg cap ms lvls outs used).placed, o.1 ∈ pre := by
  induction lvls with
  | nil =>
    intro outs used
    exact ⟨[], by simp [place_sell_ladder], by simp [place_sell_ladder]⟩
  | cons ap rest ih =>
    intro outs used
    simp only [place_sell_ladder]
    split_ifs with hskip hbreak hqty hok
    · obtain ⟨pre, hpre, hplaced⟩ := ih outs used
      exact ⟨ap :: pre, by rw [List.cons_append, ← hpre],
        fun o ho => List.mem_cons_of_mem ap (hplaced o ho)⟩
    · exact ⟨[], by simp, by simp⟩
    · obtain ⟨pre, hpre, hplaced⟩ := ih outs used
      exact ⟨ap :: pre, by rw [List.cons_append, ← hpre],
        fun o ho => List.mem_cons_of_mem ap (hplaced o ho)⟩
    · obtain ⟨pre, hpre, hplaced⟩ :=
        ih outs.tail (used + round_to cfg.base_order_size cfg.quantity_precision)
      refine ⟨ap :: pre, by rw [List.cons_append, ← hpre], ?_⟩
      intro o ho
      simp only [List.mem_cons] at ho
      rcases ho with rfl | ho
      · exact List.mem_cons_self ap pre
      · exact List.mem_cons_of_mem ap (hplaced o ho)
    · obtain ⟨pre, hpre, hplaced⟩ := ih outs.tail used
      exact ⟨ap :: pre, by rw [List.cons_append, ← hpre],
        fun o ho => List.mem_cons_of_mem ap (hplaced o ho)⟩

theorem place_sell_ladder_breach (cfg : GridConfig) (cap : ℚ) (ms : Option ℚ)
    (lvls : List ℚ) :
    ∀ (outs : List Bool) (used : ℚ) (ap2 : ℚ) (rest2 : List ℚ),
      (place_sell_ladder cfg cap ms lvls outs used).remaining = ap2 :: rest2 →
      cap < (place_sell_ladder cfg cap ms lvls outs used).used +
        round_to cfg.base_order_size cfg.quantity_precision := by
  induction lvls with
  | nil =>
    intro outs used ap2 rest2 h
    simp [place_sell_ladder] at h
  | cons ap rest ih =>
    intro outs used ap2 rest2 h
    simp only [place_sell_ladder] at h ⊢
    split_ifs at h ⊢ with hskip hbreak hqty hok
    · exact ih outs used ap2 rest2 h
    · exact hbreak
    · exact ih outs used ap2 rest2 h
    · exact ih outs.tail
        (used + round_to cfg.base_order_size cfg.quantity_precision) ap2 rest2 h
    · exact ih outs.tail used ap2 rest2 h

theorem place_buy_ladder_all (cfg : GridConfig) (cap : ℚ) (lvls : List ℚ)
    (outs : List Bool) (hcap : 0 ≤ cap) :
    (place_buy_ladder cfg cap lvls outs 0).used =
      ((place_buy_ladder cfg cap lvls outs 0).placed.map
        (fun o => o.1 * cfg.base_order_size)).sum ∧
    (place_buy_ladder cfg cap lvls outs 0).used ≤ cap ∧
    (∃ pre, lvls = pre ++ (place_buy_ladder cfg cap lvls outs 0).remaining ∧
      ∀ o ∈ (place_buy_ladder cfg cap lvls outs 0).placed, o.1 ∈ pre) ∧
    (∀ bp2 rest2, (place_buy_ladder cfg cap lvls outs 0).remaining = bp2 :: rest2 →
      cap < (place_buy_ladder cfg cap lvls outs 0).used + bp2 * cfg.base_order_size) := by
  refine ⟨?_, ?_, ?_, ?_⟩
  · have h := place_buy_ladder_used_eq cfg cap lvls outs 0
    simpa using h
  · exact place_buy_ladder_used_le cfg cap lvls outs 0 hcap
  · exact place_buy_ladder_decomp cfg cap lvls outs 0
  · exact fun bp2 rest2 => place_buy_ladder_breach cfg cap lvls outs 0 bp2 rest2

theorem place_sell_ladder_all (cfg : GridConfig) (cap : ℚ) (ms : Option ℚ)
    (lvls : List ℚ) (outs : List Bool) (hcap : 0 ≤ cap) :
    (place_sell_ladder cfg cap ms lvls outs 0).used =
      ((place_sell_ladder cfg cap ms lvls outs 0).placed.map (fun o => o.2)).sum ∧
    (place_sell_ladder cfg cap ms lvls outs 0).used ≤ cap ∧
    (∃ pre, lvls = pre ++ (place_sell_ladder cfg cap ms lvls outs 0).remaining ∧
      ∀ o ∈ (place_sell_ladder cfg cap ms lvls outs 0).placed, o.1 ∈ pre) ∧
    (∀ ap2 rest2, (place_sell_ladder cfg cap ms lvls outs 0).remaining = ap2 :: rest2 →
      cap < (place_sell_ladder cfg cap ms lvls outs 0).used +
        round_to cfg.base_order_size cfg.quantity_precision) := by
  refine ⟨?_, ?_, ?_, ?_⟩
  · have h := place_sell_ladder_used_eq cfg cap ms lvls outs 0
    simpa using h
  · exact place_sell_ladder_used_le cfg cap ms lvls outs 0 hcap
  · exact place_sell_ladder_decomp cfg cap ms lvls outs 0
  · exact fun ap2 rest2 => place_sell_ladder_breach cfg cap ms lvls outs 0 ap2 rest2

/-- C4: in one `_adjust_orders` cycle, for every positive current price,
configuration and sequence of order-placement outcomes, the cumulative
buy-side notional committed (the budget counter, equal to the sum over
placed buy orders of level price times the base order size) never exceeds
`GRID_TOTAL_INVESTMENT * GRID_SIDE_BUDGET_RATIO`; the cumulative sell-side
quantity never exceeds that budget divided by the current price; each side
walks a prefix of its level list and every placed order comes from that
prefix, and when levels remain unattempted the first of them is one whose
inclusion would breach the side cap. -/
theorem C4_grid_budget (cfg : GridConfig) (current_price position_cost : ℚ)
    (can_buy can_sell : Bool) (buy_outcomes sell_outcomes : List Bool)
    (hp : 0 < current_price)
    (hcap : 0 ≤ cfg.grid_total_investment * cfg.grid_side_budget_ratio) :
    ((adjust_orders_ladders cfg current_price position_cost can_buy can_sell
        buy_outcomes sell_outcomes).1.used =
      ((adjust_orders_ladders cfg current_price position_cost can_buy can_sell
        buy_outcomes sell_outcomes).1.placed.map
          (fun o => o.1 * cfg.base_order_size)).sum ∧
     (adjust_orders_ladders cfg current_price position_cost can_buy can_sell
        buy_outcomes sell_outcomes).1.used ≤ buy_usdc_cap cfg ∧
     (∃ pre, buy_prices cfg current_price = pre ++
        (adjust_orders_ladders cfg current_price position_cost can_buy can_sell
          buy_outcomes sell_outcomes).1.remaining ∧
       ∀ o ∈ (adjust_orders_ladders cfg current_price position_cost can_buy can_sell
          buy_outcomes sell_outcomes).1.placed, o.1 ∈ pre) ∧
     (∀ bp2 rest2,
        (adjust_orders_ladders cfg current_price position_cost can_buy can_sell
          buy_outcomes sell_outcomes).1.remaining = bp2 :: rest2 →
        buy_usdc_cap cfg <
          (adjust_orders_ladders cfg current_price position_cost can_buy can_sell
            buy_outcomes sell_outcomes).1.used + bp2 * cfg.base_order_size)) ∧
    ((adjust_orders_ladders cfg current_price position_cost can_buy can_sell
        buy_outcomes sell_outcomes).2.used =
      ((adjust_orders_ladders cfg current_price position_cost can_buy can_sell
        buy_outcomes sell_outcomes).2.placed.map (fun o => o.2)).sum ∧
     (adjust_orders_ladders cfg current_price position_cost can_buy can_sell
        buy_outcomes sell_outcomes).2.used ≤ sell_base_cap cfg current_price ∧
     (∃ pre, sell_prices cfg current_price = pre ++
        (adjust_orders_ladders cfg current_price position_cost can_buy can_sell
          buy_outcomes sell_outcomes).2.remaining ∧
       ∀ o ∈ (adjust_orders_ladders cfg current_price position_cost can_buy can_sell
          buy_outcomes sell_outcomes).2.placed, o.1 ∈ pre) ∧
     (∀ ap2 rest2,
        (adjust_orders_ladders cfg current_price position_cost can_buy can_sell
          buy_outcomes sell_outcomes).2.remaining = ap2 :: rest2 →
        sell_base_cap cfg current_price <
          (adjust_orders_ladders cfg current_price position_cost can_buy can_sell
            buy_outcomes sell_outcomes).2.used +
            round_to cfg.base_order_size cfg.quantity_precision)) := by
  have hbcap : 0 ≤ buy_usdc_cap cfg := hcap
  have hscap : 0 ≤ sell_base_cap cfg current_price :=
    div_nonneg hcap (le_of_lt hp)
  constructor
  · cases can_buy
    · simp only [adjust_orders_ladders, Bool.false_eq_true, if_false]
      refine ⟨by simp, by simpa using hbcap, ⟨buy_prices cfg current_price, by simp, by simp⟩, ?_⟩
      intro bp2 rest2 h
      simp at h
    · simp only [adjust_orders_ladders, if_true]
      exact place_buy_ladder_all cfg (buy_usdc_cap cfg) (buy_prices cfg current_price)
        buy_outcomes hbcap
  · cases can_sell
    · simp only [adjust_orders_ladders, Bool.false_eq_true, if_false]
      refine ⟨by simp, by simpa using hscap, ⟨sell_prices cfg current_price, by simp, by simp⟩, ?_⟩
      intro ap2 rest2 h
      simp at h
    · simp only [adjust_orders_ladders, if_true]
      exact place_sell_ladder_all cfg (sell_base_cap cfg current_price)
        (min_sell_price cfg position_cost) (sell_prices cfg current_price)
        sell_outcomes hscap

/-- C4 witness: the theorem applied to the spec example, levels 6, step
`0.0002`, price 100, side budget ratio one half of a total of 200, with
every placement succeeding. -/
theorem C4_grid_budget_witness :
    (0 : ℚ) < 100 ∧ (0 : ℚ) ≤ 200 * (1/2) ∧
    (adjust_orders_ladders ⟨6, 2/10000, 2, 2, 1/2, 200, 1/10, 5/10000⟩ 100 0 true true
      (List.replicate 6 true) (List.replicate 6 true)).1.used ≤
        buy_usdc_cap ⟨6, 2/10000, 2, 2, 1/2, 200, 1/10, 5/10000⟩ ∧
    (adjust_orders_ladders ⟨6, 2/10000, 2, 2, 1/2, 200, 1/10, 5/10000⟩ 100 0 true true
      (List.replicate 6 true) (List.replicate 6 true)).2.used ≤
        sell_base_cap ⟨6, 2/10000, 2, 2, 1/2, 200, 1/10, 5/10000⟩ 100 := by
  have h := C4_grid_budget ⟨6, 2/10000, 2, 2, 1/2, 200, 1/10, 5/10000⟩ 100 0 true true
    (List.replicate 6 true) (List.replicate 6 true) (by norm_num) (by norm_num)
  exact ⟨by norm_num, by norm_num, h.1.2.1, h.2.2.1⟩

/-- C7: whenever `_get_cached_position` finds no cached value or a cache
older than the refresh interval, it enqueues exactly one refresh request
and returns the cache value as of the end of the bounded wait, or the zero
position if none exists; otherwise it enqueues nothing and returns the
existing cache value. In every case the returned value is a position, never
`None`. -/
theorem C7_cached_position (s : PositionCacheState) (now : ℚ)
    (cache_after_wait : Option CachedPosition) :
    ((s.position_cache = none ∨
        s.position_update_interval < now - s.last_position_update) →
      (get_cached_position s now cache_after_wait).1 = [DbRequest.get_position] ∧
      (∀ v, cache_after_wait = some v →
        (get_cached_position s now cache_after_wait).2 = v) ∧
      (cache_after_wait = none →
        (get_cached_position s now cache_after_wait).2 = ⟨0, 0⟩)) ∧
    (¬ (s.position_cache = none ∨
        s.position_update_interval < now - s.last_position_update) →
      (get_cached_position s now cache_after_wait).1 = [] ∧
      (∀ v, s.position_cache = some v →
        (get_cached_position s now cache_after_wait).2 = v) ∧
      (s.position_cache = none →
        (get_cached_position s now cache_after_wait).2 = ⟨0, 0⟩)) := by
  constructor
  · intro h
    unfold get_cached_position
    rw [if_pos h]
    exact ⟨rfl, fun v hv => by rw [hv] ; rfl, fun hv => by rw [hv] ; rfl⟩
  · intro h
    unfold get_cached_position
    rw [if_neg h]
    exact ⟨rfl, fun v hv => by rw [hv] ; rfl, fun hv => by rw [hv] ; rfl⟩

/-- C7 witness: the theorem applied to an empty cache at time 0, with the
queue worker delivering the position `(4, 2)` during the wait. -/
theorem C7_cached_position_witness :
    ((⟨none, 0, 1⟩ : PositionCacheState).position_cache = none ∨
      (⟨none, 0, 1⟩ : PositionCacheState).position_update_interval <
        (0 : ℚ) - (⟨none, 0, 1⟩ : PositionCacheState).last_position_update) ∧
    (get_cached_position ⟨none, 0, 1⟩ 0 (some ⟨4, 2⟩)).1 = [DbRequest.get_position] ∧
    (get_cached_position ⟨none, 0, 1⟩ 0 (some ⟨4, 2⟩)).2 = ⟨4, 2⟩ := by
  have h := (C7_cached_position ⟨none, 0, 1⟩ 0 (some ⟨4, 2⟩)).1 (Or.inl rfl)
  exact ⟨Or.inl rfl, h.1, h.2.1 ⟨4, 2⟩ rfl⟩

/-- C8: the heartbeat check triggers a reconnect exactly when the client is
connected and the heartbeat age exceeds 30 seconds; a triggered reconnect
leaves the connected state, and no further heartbeat check can trigger
again until the socket reopens, so the client leaves the live state exactly
once per staleness episode; on each socket open the client re-sends its
whole previously accumulated subscription set and keeps that set unchanged;
and subscribing to an already-subscribed channel changes nothing, so the
subscription set never acquires duplicates. -/
theorem C8_ws_reconnect (s : WSState) (now now2 : ℚ) (ch : String) :
    ((ws_heartbeat_check s now).2 = true ↔
      (s.connected = true ∧ 30 < now - s.last_heartbeat)) ∧
    ((ws_heartbeat_check s now).2 = true →
      ((ws_heartbeat_check s now).1.connected = false ∧
       (ws_heartbeat_check (ws_heartbeat_check s now).1 now2).2 = false)) ∧
    ((ws_on_open s).sent = s.sent ++ s.subscriptions ∧
     (ws_on_open s).connected = true ∧
     (ws_on_open s).subscriptions = s.subscriptions) ∧
    (ch ∈ s.subscriptions → ws_subscribe s ch = s) ∧
    (s.subscriptions.Nodup → (ws_subscribe s ch).subscriptions.Nodup) := by
  refine ⟨?_, ?_, ⟨rfl, rfl, rfl⟩, ?_, ?_⟩
  · unfold ws_heartbeat_check
    split_ifs with h
    · simpa using h
    · simpa using h
  · intro htrig
    have h : s.connected = true ∧ 30 < now - s.last_heartbeat := by
      unfold ws_heartbeat_check at htrig
      split_ifs at htrig with h
      exact h
    have he : ws_heartbeat_check s now = ({ s with connected := false }, true) := by
      unfold ws_heartbeat_check
      rw [if_pos h]
    rw [he]
    refine ⟨rfl, ?_⟩
    unfold ws_heartbeat_check
    rw [if_neg]
    intro hcon
    exact Bool.false_ne_true hcon.1
  · intro hmem
    unfold ws_subscribe
    rw [if_pos hmem]
  · intro hnd
    unfold ws_subscribe
    split_ifs with hmem hconn
    · exact hnd
    · simpa [List.nodup_append] using ⟨hnd, hmem⟩
    · simpa [List.nodup_append] using ⟨hnd, hmem⟩

/-- C8 witness: the theorem applied to a connected client with one
accumulated subscription and a heartbeat 40 seconds stale. -/
theorem C8_ws_reconnect_witness :
    (ws_heartbeat_check ⟨true, true, 0, ["bookTicker.SOL_USDC"], []⟩ 40).2 = true ∧
    ws_subscribe ⟨true, true, 0, ["bookTicker.SOL_USDC"], []⟩ "bookTicker.SOL_USDC" =
      ⟨true, true, 0, ["bookTicker.SOL_USDC"], []⟩ ∧
    (ws_on_open ⟨true, true, 0, ["bookTicker.SOL_USDC"], []⟩).sent =
      [] ++ ["bookTicker.SOL_USDC"] := by
  have h := C8_ws_reconnect ⟨true, true, 0, ["bookTicker.SOL_USDC"], []⟩ 40 41
    "bookTicker.SOL_USDC"
  exact ⟨h.1.mpr ⟨rfl, by norm_num⟩,
    h.2.2.2.1 (List.mem_singleton.mpr rfl), h.2.2.1.1⟩

theorem const_list_sum (p : ℚ) (l : List ℚ) (h : ∀ x ∈ l, x = p) :
    l.sum = l.length * p := by
  induction l with
  | nil => simp
  | cons a t ih =>
    have ha : a = p := h a (List.mem_cons_self a t)
    have ht := ih (fun x hx => h x (List.mem_cons_of_mem a hx))
    rw [List.sum_cons, ha, ht, List.length_cons]
    push_cast
    ring

theorem update_const (bb : BollingerBands) (p : ℚ) (hall : ∀ x ∈ bb.prices, x = p)
    (hper : 1 ≤ bb.period) (hlen : bb.prices.length ≤ bb.period) :
    (bb.update p).2 = (p, p, p) ∧
    (∀ x ∈ (bb.update p).1.prices, x = p) ∧
    (bb.update p).1.prices.length = min (bb.prices.length + 1) bb.period ∧
    (bb.update p).1.period = bb.period ∧
    (bb.update p).1.prices.length ≤ bb.period := by
  have hall0 : ∀ x ∈ bb.prices ++ [p], x = p := by
    intro x hx
    rcases List.mem_append.mp hx with hx | hx
    · exact hall x hx
    · simpa using hx
  have hlen0 : (bb.prices ++ [p]).length = bb.prices.length + 1 := by simp
  -- the window after the eviction step
  have hwin : ∀ x ∈ (bb.update p).1.prices, x = p := by
    intro x hx
    unfold BollingerBands.update at hx
    dsimp only at hx
    split_ifs at hx with h1 h2 <;>
      first
        | exact hall0 x (List.mem_of_mem_tail hx)
        | exact hall0 x hx
  have hwl : (bb.update p).1.prices.length = min (bb.prices.length + 1) bb.period := by
    unfold BollingerBands.update
    dsimp only
    split_ifs with h1 h2 <;> simp only [List.length_tail, hlen0] <;> omega
  have hwp : (bb.update p).1.period = bb.period := by
    unfold BollingerBands.update
    dsimp only
    split_ifs <;> rfl
  refine ⟨?_, hwin, hwl, hwp, by omega⟩
  -- the returned bands
  have hbands : ∀ (l : List ℚ), l ≠ [] → (∀ x ∈ l, x = p) →
      (l.sum / (l.length : ℚ) = p ∧ (l.map (fun x => (x - p) ^ 2)).sum = 0) := by
    intro l hne hl
    have hn : (l.length : ℚ) ≠ 0 := by
      simpa using fun h => hne (List.length_eq_zero.mp h)
    constructor
    · rw [const_list_sum p l hl]
      field_simp
    · have : ∀ y ∈ l.map (fun x => (x - p) ^ 2), y = 0 := by
        intro y hy
        obtain ⟨x, hx, rfl⟩ := List.mem_map.mp hy
        rw [hl x hx]
        ring
      rw [const_list_sum 0 _ this]
      ring
  unfold BollingerBands.update
  dsimp only
  set l1 := if bb.period < (bb.prices ++ [p]).length then (bb.prices ++ [p]).tail
    else bb.prices ++ [p] with hl1
  have hl1all : ∀ x ∈ l1, x = p := by
    intro x hx
    rw [hl1] at hx
    split_ifs at hx
    · exact hall0 x (List.mem_of_mem_tail hx)
    · exact hall0 x hx
  split_ifs with hshort
  · rfl
  · have hne : l1 ≠ [] := by
      intro h
      rw [h] at hshort
      simp at hshort
      omega
    have hb := hbands l1 hne hl1all
    have hmid : l1.sum / (l1.length : ℚ) = p := hb.1
    rw [hmid]
    have hvar : (l1.map (fun x => (x - p) ^ 2)).sum = 0 := hb.2
    rw [hvar]
    have : Rat.sqrt (0 / (l1.length : ℚ)) = 0 := by
      rw [zero_div]
      decide
    rw [this]
    simp

theorem feed_const (p : ℚ) : ∀ (xs : List ℚ) (bb : BollingerBands), xs ≠ [] →
    (∀ x ∈ xs, x = p) → (∀ x ∈ bb.prices, x = p) →
    1 ≤ bb.period → bb.prices.length ≤ bb.period →
    (bb.feed xs).2 = (p, p, p) ∧
    (bb.feed xs).1.prices.length = min (bb.prices.length + xs.length) bb.period ∧
    (bb.feed xs).1.period = bb.period := by
  intro xs
  induction xs with
  | nil =>
    intro bb hne
    exact absurd rfl hne
  | cons x t ih =>
    intro bb hne hxs hbb hper hlen
    have hx : x = p := hxs x (List.mem_cons_self x t)
    subst hx
    have h := update_const bb x hbb hper hlen
    rcases t with _ | ⟨y, t2⟩
    · simp only [BollingerBands.feed]
      refine ⟨h.1, ?_, h.2.2.2.1⟩
      rw [h.2.2.1]
      simp
    · have hfe : bb.feed (x :: y :: t2) = ((bb.update x).1).feed (y :: t2) := rfl
      rw [hfe]
      have ht := ih ((bb.update x).1) (by simp)
        (fun z hz => hxs z (List.mem_cons_of_mem x hz)) h.2.1
        (h.2.2.2.1 ▸ hper) (h.2.2.2.1 ▸ h.2.2.2.2)
      refine ⟨ht.1, ?_, by rw [ht.2.2, h.2.2.2.1]⟩
      rw [ht.2.1, h.2.2.1, h.2.2.2.1]
      simp only [List.length_cons]
      omega

/-- C9: feeding at least `N` identical closes `p` into an `N`-period
`BollingerBands` instance through `update` yields
`upper = middle = lower = p` from the last update, and the resulting
instance reports ready (its window holds at least `N` samples). -/
theorem C9_bollinger_const (N : ℕ) (k p : ℚ) (xs : List ℚ)
    (hN : 1 ≤ N) (hlen : N ≤ xs.length) (hall : ∀ x ∈ xs, x = p) :
    ((⟨N, k, []⟩ : BollingerBands).feed xs).2 = (p, p, p) ∧
    ((⟨N, k, []⟩ : BollingerBands).feed xs).1.is_ready = true := by
  have hne : xs ≠ [] := by
    intro h
    rw [h] at hlen
    simp at hlen
    omega
  have h := feed_const p xs ⟨N, k, []⟩ hne hall (by simp) hN (by simp)
  refine ⟨h.1, ?_⟩
  simp only [BollingerBands.is_ready, h.2.2, h.2.1, decide_eq_true_eq]
  simp only [List.length_nil, Nat.zero_add]
  omega

/-- C9 witness: the theorem applied to three closes at 5 with period 2. -/
theorem C9_bollinger_const_witness :
    1 ≤ 2 ∧ 2 ≤ ([(5 : ℚ), 5, 5]).length ∧
    ((⟨2, 2, []⟩ : BollingerBands).feed [5, 5, 5]).2 = (5, 5, 5) ∧
    ((⟨2, 2, []⟩ : BollingerBands).feed [5, 5, 5]).1.is_ready = true := by
  have h := C9_bollinger_const 2 2 5 [5, 5, 5] (by norm_num) (by simp)
    (by intro x hx ; simp only [List.mem_cons, List.not_mem_nil, or_false] at hx ;
        rcases hx with rfl | rfl | rfl <;> rfl)
  exact ⟨by norm_num, by simp, h.1, h.2⟩
